import Mathlib

/-!
Shallow embedding of the content-optimization backend
(`src/backend/server.py`) and verification of the frozen claims.

Strings are modelled over their ASCII character lists; real-valued
scores are modelled in `ℚ` (Python float arithmetic is mapped to exact
rational arithmetic).  Database writes are modelled as always
succeeding; the AI adapter is modelled as an `Except String String`
value per stage (`ok response` / `error message`).
-/

namespace ContentRefine

/-! ### Character classes (ASCII model of Python `str` predicates) -/

/-- Whitespace characters recognised by Python `str.split()` / `\s` (ASCII). -/
def isPySpace (c : Char) : Bool :=
  c = ' ' || c = '\t' || c = '\n' || c = '\r' || c = '\x0b' || c = '\x0c'

/-- Sentence terminators: the class `[.!?]` of `re.split(r'[.!?]+', text)`. -/
def isTerm (c : Char) : Bool :=
  c = '.' || c = '!' || c = '?'

/-- The vowel class `[aeiouy]` used as a syllable proxy. -/
def isVowel (c : Char) : Bool :=
  c = 'a' || c = 'e' || c = 'i' || c = 'o' || c = 'u' || c = 'y'

/-- Word characters: the class `\w` (ASCII model). -/
def isWordChar (c : Char) : Bool :=
  ('a' ≤ c && c ≤ 'z') || ('A' ≤ c && c ≤ 'Z') || ('0' ≤ c && c ≤ '9') || c = '_'

/-- ASCII `str.lower()` on a single character. -/
def toLowerChar (c : Char) : Char :=
  if 'A' ≤ c && c ≤ 'Z' then Char.ofNat (c.toNat + 32) else c

/-- `str.lower()` on a character list. -/
def lowerList (l : List Char) : List Char :=
  l.map toLowerChar

/-! ### Tokenisation -/

/-- Maximal runs of characters satisfying `p` (the shape shared by
`text.split()` and `re.findall(r'\w+', text)`). -/
def runsOfAux (p : Char → Bool) : List Char → List Char → List (List Char)
  | [], acc => if acc.isEmpty then [] else [acc.reverse]
  | c :: cs, acc =>
    if p c then runsOfAux p cs (c :: acc)
    else if acc.isEmpty then runsOfAux p cs []
    else acc.reverse :: runsOfAux p cs []

def runsOf (p : Char → Bool) (l : List Char) : List (List Char) :=
  runsOfAux p l []

/-- Python `text.split()`: maximal runs of non-whitespace. -/
def splitWords (l : List Char) : List (List Char) :=
  runsOf (fun c => !isPySpace c) l

/-- `re.split(r'[.!?]+', text)`: segments between maximal terminator runs,
keeping the (possibly empty) leading and trailing segments. -/
def splitSegsAux : List Char → List (List Char) → List Char → Bool → List (List Char)
  | [], done, cur, _ => done ++ [cur.reverse]
  | c :: cs, done, cur, inTerm =>
    if isTerm c then
      if inTerm then splitSegsAux cs done cur true
      else splitSegsAux cs (done ++ [cur.reverse]) [] true
    else splitSegsAux cs done (c :: cur) false

def splitSegs (l : List Char) : List (List Char) :=
  splitSegsAux l [] [] false

/-- Count of maximal runs satisfying `p` (used for
`len(re.findall(r'[aeiouy]+', word))`). -/
def countRunsAux (p : Char → Bool) : List Char → Bool → Nat
  | [], _ => 0
  | c :: cs, inRun =>
    if p c then
      if inRun then countRunsAux p cs true else 1 + countRunsAux p cs true
    else countRunsAux p cs false

def countRuns (p : Char → Bool) (l : List Char) : Nat :=
  countRunsAux p l false

/-- `len(text.split())`. -/
def wordCount (text : String) : Nat :=
  (splitWords text.toList).length

/-- `len(re.split(r'[.!?]+', text))`. -/
def sentenceCount (text : String) : Nat :=
  (splitSegs text.toList).length

/-- `sum(len(re.findall(r'[aeiouy]+', word.lower())) for word in text.split())`. -/
def syllableCount (text : String) : Nat :=
  ((splitWords text.toList).map (fun w => countRuns isVowel (lowerList w))).sum

/-! ### `calculate_readability` -/

/-- `calculate_readability` from `server.py`: Flesch reading-ease formula
with the word/sentence/syllable counts above, clamped to `[0,100]`,
returning `0.0` when the word count (or the unreachable sentence count)
is zero. -/
def calculate_readability (text : String) : ℚ :=
  let words : Nat := wordCount text
  let sentences : Nat := sentenceCount text
  let syllables : Nat := syllableCount text
  if sentences = 0 ∨ words = 0 then 0
  else
    max 0 (min 100 (206835/1000 - 1015/1000 * ((words : ℚ) / (sentences : ℚ))
      - 846/10 * ((syllables : ℚ) / (words : ℚ))))

/-! ### `calculate_seo_score` -/

/-- `pattern` starts the list `l` (`list.startswith` shape used for the
substring check). -/
def listStartsWith : List Char → List Char → Bool
  | [], _ => true
  | _ :: _, [] => false
  | a :: as, b :: bs => a = b && listStartsWith as bs

/-- Python's `pattern in text` substring test. -/
def hasSubstring (pat : List Char) : List Char → Bool
  | [] => listStartsWith pat []
  | c :: ts => listStartsWith pat (c :: ts) || hasSubstring pat ts

/-- `len(set(w.lower() for w in words))`. -/
def uniqueLowerCount (ws : List (List Char)) : Nat :=
  ((ws.map lowerList).dedup).length

/-- `calculate_seo_score` from `server.py`. -/
def calculate_seo_score (text title : String) : ℚ :=
  let ws := splitWords text.toList
  let word_count := ws.length
  let lengthScore : ℚ :=
    if 300 ≤ word_count ∧ word_count ≤ 2000 then 30
    else if 2000 < word_count then 20
    else 10
  let titleScore : ℚ :=
    if hasSubstring (lowerList title.toList) (lowerList text.toList) then 20 else 0
  let structureScore : ℚ :=
    if '\n' ∈ text.toList ∨ 500 < text.toList.length then 20 else 0
  let varietyScore : ℚ :=
    if 0 < word_count then ((uniqueLowerCount ws : ℚ) / (word_count : ℚ)) * 30
    else 0
  min 100 (lengthScore + titleScore + structureScore + varietyScore)

/-! ### `extract_keywords` -/

/-- One step of building the Python `word_freq` dict: frequencies held as
an association list in first-encounter (insertion) order. -/
def bumpFreq : List (List Char × Nat) → List Char → List (List Char × Nat)
  | [], w => [(w, 1)]
  | (k, v) :: rest, w =>
    if k = w then (k, v + 1) :: rest else (k, v) :: bumpFreq rest w

/-- The `word_freq` dict of `extract_keywords`, in insertion order. -/
def freqOf (ws : List (List Char)) : List (List Char × Nat) :=
  ws.foldl bumpFreq []

/-- Stable insertion step for a descending sort on the density value:
an element is placed before the first strictly-smaller entry, after all
entries that are `≥` it, matching Python's stable
`sorted(..., reverse=True)`. -/
def insertDesc (x : List Char × ℚ) : List (List Char × ℚ) → List (List Char × ℚ)
  | [] => [x]
  | y :: ys => if y.2 ≤ x.2 then x :: y :: ys else y :: insertDesc x ys

/-- Stable descending sort by density. -/
def sortDesc : List (List Char × ℚ) → List (List Char × ℚ)
  | [] => []
  | x :: xs => insertDesc x (sortDesc xs)

/-- The qualifying tokens of `extract_keywords`:
`[w.lower() for w in re.findall(r'\w+', text) if len(w) > 3]`. -/
def keywordTokens (text : String) : List (List Char) :=
  ((runsOf isWordChar text.toList).filter (fun w => 3 < w.length)).map lowerList

/-- `extract_keywords` from `server.py`, returning the Python dict as an
association list in its iteration order (top 5 densities, descending,
ties in first-encounter order). -/
def extract_keywords (text : String) : List (List Char × ℚ) :=
  let ws := keywordTokens text
  if ws.isEmpty then []
  else
    let total := ws.length
    let densities := (freqOf ws).map (fun kv => (kv.1, ((kv.2 : ℚ) / (total : ℚ)) * 100))
    (sortDesc densities).take 5

/-! ### Regex-response parsing (`analyze` / `variants` stages) -/

/-- `str.strip()`: drop leading and trailing whitespace. -/
def stripList (l : List Char) : List Char :=
  ((l.dropWhile (fun c => isPySpace c)).reverse.dropWhile (fun c => isPySpace c)).reverse

/-- Match the tail `\s*(.+)` of the suggestion/tone patterns at the head of
`l`, with the regex engine's backtracking: `\s*` is greedy; if nothing
non-whitespace remains, it gives characters back until `.+` (which cannot
match a newline) can take one character.  Returns the capture and the
characters after the match. -/
def matchTail (l : List Char) : Option (List Char × List Char) :=
  let w := l.takeWhile (fun c => isPySpace c)
  let rest := l.drop w.length
  match rest with
  | _ :: _ =>
    let cap := rest.takeWhile (fun c => c ≠ '\n')
    some (cap, rest.drop cap.length)
  | [] =>
    match l.reverse.dropWhile (fun c => c = '\n') with
    | [] => none
    | c :: _ => some ([c], l.reverse.takeWhile (fun c => c = '\n'))

/-- `'0' ≤ c ≤ '9'` (the class `\d`, ASCII). -/
def isDigit (c : Char) : Bool :=
  '0' ≤ c && c ≤ '9'

/-- Try to match `\d+\.\s*(.+)` at the head of `l`. -/
def matchNumItem (l : List Char) : Option (List Char × List Char) :=
  let ds := l.takeWhile isDigit
  if ds.isEmpty then none
  else
    match l.drop ds.length with
    | '.' :: rest => matchTail rest
    | _ => none

/-- `re.findall(r'\d+\.\s*(.+)', response)`: scan left to right, at each
position try the pattern; on a match emit the capture and continue after
the match (non-overlapping).  The fuel argument is the input length,
which bounds the number of scan steps since every step consumes at least
one character. -/
def findNumItemsFuel : Nat → List Char → List (List Char)
  | 0, _ => []
  | _, [] => []
  | fuel + 1, c :: cs =>
    match matchNumItem (c :: cs) with
    | some (cap, rest) => cap :: findNumItemsFuel fuel rest
    | none => findNumItemsFuel fuel cs

def findNumItems (l : List Char) : List (List Char) :=
  findNumItemsFuel l.length l

/-- The suggestion list of the analyze stage on a successful adapter call:
`suggestions[:3] if suggestions else ["Improve clarity", ...]`. -/
def parseSuggestions (response : String) : List String :=
  let found := (findNumItems response.toList).map (fun c => String.mk c)
  if found.isEmpty then ["Improve clarity", "Enhance engagement", "Optimize structure"]
  else found.take 3

/-- `re.search(r'TONE:\s*(.+)', response)`: leftmost position where the
whole pattern matches; later positions are tried when the tail fails. -/
def findToneAux : List Char → Option (List Char)
  | [] => none
  | c :: cs =>
    if listStartsWith ['T', 'O', 'N', 'E', ':'] (c :: cs) then
      match matchTail ((c :: cs).drop 5) with
      | some (cap, _) => some cap
      | none => findToneAux cs
    else findToneAux cs

/-- The tone of the analyze stage on a successful adapter call
(`group(1).strip()`, default `"Neutral"`). -/
def parseTone (response : String) : String :=
  match findToneAux response.toList with
  | some cap => String.mk (stripList cap)
  | none => "Neutral"

/-- Suffix of `l` after the first occurrence of `marker`. -/
def findAfterMarker (marker : List Char) : List Char → Option (List Char)
  | [] => none
  | c :: cs =>
    if listStartsWith marker (c :: cs) then some ((c :: cs).drop marker.length)
    else findAfterMarker marker cs

/-- Smallest `k ≥ 1` with `isStop (rest.drop k)` (the lazy `(.+?)` of the
variant patterns under `re.DOTALL`, expanding until the lookahead or the
end anchor matches).  `isStop []` is true for both variant patterns, so a
stop always exists. -/
def firstLazyStop (isStop : List Char → Bool) : List Char → Nat
  | [] => 0
  | _ :: rs => if isStop rs then 1 else 1 + firstLazyStop isStop rs

/-- Lookahead `(?=VARIANT_B:|$)` of the variant-A pattern (`$` matches at
the end or before a final newline). -/
def stopVariantA (l : List Char) : Bool :=
  listStartsWith "VARIANT_B:".toList l || l.isEmpty || l = ['\n']

/-- End anchor `$` of the variant-B pattern. -/
def stopVariantB (l : List Char) : Bool :=
  l.isEmpty || l = ['\n']

/-- `re.search(r'MARKER:\s*(.+?)STOP', response, re.DOTALL)` followed by
`.strip()`: locate the marker, consume `\s*` greedily, then the lazy
dot-all capture up to the first stop; if only whitespace follows the
marker, `\s*` backtracks one character so `(.+?)` can match it. -/
def parseVariant (marker : List Char) (isStop : List Char → Bool)
    (response : List Char) : Option (List Char) :=
  match findAfterMarker marker response with
  | none => none
  | some tail =>
    let w := tail.takeWhile (fun c => isPySpace c)
    match tail.drop w.length with
    | c :: rest => some (stripList ((c :: rest).take (firstLazyStop isStop (c :: rest))))
    | [] =>
      match w.getLast? with
      | some c => some (stripList [c])
      | none => none

/-! ### Data model (`server.py` pydantic models) -/

structure AnalysisResult where
  readability_score : ℚ
  seo_score : ℚ
  tone : String
  keyword_density : List (List Char × ℚ)
  word_count : Nat
  sentence_count : Nat
  suggestions : List String
deriving DecidableEq, Repr

structure OptimizationResult where
  optimized_content : String
  improvements : List String
deriving DecidableEq, Repr

structure VariantResult where
  variant_a : String
  variant_b : String
  differences : List String
deriving DecidableEq, Repr

structure ContentInput where
  title : String
  content : String
  content_type : String
deriving DecidableEq, Repr

/-- The persisted job record.  Timestamps are abstract `Nat` instants. -/
structure ContentJob where
  id : String
  title : String
  original_content : String
  content_type : String
  status : String
  analysis : Option AnalysisResult
  optimization : Option OptimizationResult
  variants : Option VariantResult
  created_at : Nat
  completed_at : Option Nat
  error : Option String
deriving DecidableEq, Repr

deriving instance DecidableEq for Except

/-- One run of the AI adapter per stage: `ok response` for a successful
call, `error message` for a raised adapter exception. -/
structure AdapterBehavior where
  analyzeResp : Except String String
  optimizeResp : Except String String
  varyResp : Except String String
deriving DecidableEq, Repr

/-! ### Pipeline stages -/

/-- `round(x, 2)` on the rational model of the score.  Python's float
`round` is round-half-even on the binary representation; the rational
model uses `round`, which differs only on exact half-cent boundaries
(no verified claim depends on that boundary). -/
def round2 (q : ℚ) : ℚ :=
  (round (q * 100) : ℚ) / 100

/-- `analyze_content_with_ai`: computes the algorithmic metrics, then
parses tone/suggestions from the adapter response; an adapter exception
is caught locally and replaced by the fixed fallback tone and
suggestions.  The stage always returns a result (it never raises). -/
def analyze_content_with_ai (aiResp : Except String String)
    (content title _content_type : String) : AnalysisResult :=
  let readability := calculate_readability content
  let seo_score := calculate_seo_score content title
  let keywords := extract_keywords content
  let word_count := wordCount content
  let sentence_count := sentenceCount content
  match aiResp with
  | Except.ok response =>
    { readability_score := round2 readability
      seo_score := round2 seo_score
      tone := parseTone response
      keyword_density := keywords
      word_count := word_count
      sentence_count := sentence_count
      suggestions := parseSuggestions response }
  | Except.error _ =>
    { readability_score := round2 readability
      seo_score := round2 seo_score
      tone := "Unable to analyze"
      keyword_density := keywords
      word_count := word_count
      sentence_count := sentence_count
      suggestions := ["Improve readability", "Enhance SEO", "Strengthen engagement"] }

/-- `optimize_content_with_ai`: on success the trimmed response becomes
`optimized_content` with a fixed improvements list; an adapter exception
is re-raised as `HTTPException(500, "Optimization failed: ...")`. -/
def optimize_content_with_ai (aiResp : Except String String)
    (_content _title : String) (_analysis : AnalysisResult)
    (_content_type : String) : Except String OptimizationResult :=
  match aiResp with
  | Except.ok optimized =>
    Except.ok
      { optimized_content := String.mk (stripList optimized.toList)
        improvements :=
          ["Enhanced readability and flow",
           "Improved SEO keyword integration",
           "Strengthened engagement and clarity",
           "Optimized structure and formatting"] }
  | Except.error e => Except.error ("Optimization failed: " ++ e)

/-- `generate_variants_with_ai`: on success the response is split at the
`VARIANT_A:` / `VARIANT_B:` markers (missing marker defaults that variant
to the optimized content); an adapter exception is re-raised as
`HTTPException(500, "Variant generation failed: ...")`. -/
def generate_variants_with_ai (aiResp : Except String String)
    (optimized_content _title _content_type : String) :
    Except String VariantResult :=
  match aiResp with
  | Except.ok response =>
    let variant_a :=
      match parseVariant "VARIANT_A:".toList stopVariantA response.toList with
      | some cap => String.mk cap
      | none => optimized_content
    let variant_b :=
      match parseVariant "VARIANT_B:".toList stopVariantB response.toList with
      | some cap => String.mk cap
      | none => optimized_content
    Except.ok
      { variant_a := variant_a
        variant_b := variant_b
        differences :=
          ["Variant A: Emotional and narrative-driven approach",
           "Variant B: Data-focused and authoritative tone",
           "Both optimized for different audience segments"] }
  | Except.error e => Except.error ("Variant generation failed: " ++ e)

/-! ### Orchestrator -/

/-- `submit_content`: the freshly inserted job record. -/
def submit_content (input : ContentInput) (id : String) (now : Nat) : ContentJob :=
  { id := id
    title := input.title
    original_content := input.content
    content_type := input.content_type
    status := "processing"
    analysis := none
    optimization := none
    variants := none
    created_at := now
    completed_at := none
    error := none }

/-- `process_content_job`: the successive persisted job states, one per
`update_one` call, starting from the state the background task observes.
Stage 1 persists `analysis`; stage 2 persists `optimization`; stage 3
persists `variants` together with the `completed` status; a raised stage
exception is caught and persisted as the terminal `failed` state, after
which no further stage executes (the list ends there).  Database writes
are modelled as always succeeding. -/
def process_content_job (beh : AdapterBehavior) (input : ContentInput)
    (job0 : ContentJob) (endTime : Nat) : List ContentJob :=
  let analysis :=
    analyze_content_with_ai beh.analyzeResp input.content input.title input.content_type
  let j1 := { job0 with analysis := some analysis }
  match optimize_content_with_ai beh.optimizeResp input.content input.title analysis
      input.content_type with
  | Except.error e =>
    [j1, { j1 with status := "failed", error := some e, completed_at := some endTime }]
  | Except.ok optimization =>
    let j2 := { j1 with optimization := some optimization }
    match generate_variants_with_ai beh.varyResp optimization.optimized_content
        input.title input.content_type with
    | Except.error e =>
      [j1, j2, { j2 with status := "failed", error := some e, completed_at := some endTime }]
    | Except.ok variants =>
      [j1, j2,
       { j2 with
          variants := some variants
          status := "completed"
          completed_at := some endTime }]

/-- The full trace of persisted states of one job: the record created by
`submit_content` followed by every state written by `process_content_job`. -/
def jobTrace (beh : AdapterBehavior) (input : ContentInput) (id : String)
    (t0 endTime : Nat) : List ContentJob :=
  submit_content input id t0 :: process_content_job beh input (submit_content input id t0) endTime

/-- The terminal persisted state of a job (the last element of its
trace). -/
def finalJob (beh : AdapterBehavior) (input : ContentInput) (id : String)
    (t0 endTime : Nat) : ContentJob :=
  (jobTrace beh input id t0 endTime).getLastD (submit_content input id t0)

/-! ### `/stats` endpoint -/

/-- The fields of a stored job record that `get_stats` reads.  The store
is a list in MongoDB natural order, which for this collection is
insertion order (`insert_one` appends); `find` with no sort returns
documents in that order. -/
structure StoredJob where
  status : String
  analysis : Option AnalysisResult
  created_at : Nat
deriving DecidableEq, Repr

structure StatsResponse where
  total_jobs : Nat
  completed_jobs : Nat
  processing_jobs : Nat
  failed_jobs : Nat
  avg_readability_score : ℚ
  avg_seo_score : ℚ
deriving DecidableEq, Repr

/-- `get_stats` from `server.py`: per-status counts, then
`find({"status": "completed"}).to_list(100)` — the first 100 completed
jobs in store order, no sort — and the averages of the scores of those
of them that have an `analysis`. -/
def get_stats (store : List StoredJob) : StatsResponse :=
  let completed := (store.filter (fun j => j.status = "completed")).take 100
  let readability_scores :=
    (completed.filterMap (fun j => j.analysis)).map (fun a => a.readability_score)
  let seo_scores :=
    (completed.filterMap (fun j => j.analysis)).map (fun a => a.seo_score)
  let avg_readability : ℚ :=
    if completed.isEmpty then 0
    else if readability_scores.isEmpty then 0
    else readability_scores.sum / (readability_scores.length : ℚ)
  let avg_seo : ℚ :=
    if completed.isEmpty then 0
    else if seo_scores.isEmpty then 0
    else seo_scores.sum / (seo_scores.length : ℚ)
  { total_jobs := store.length
    completed_jobs := (store.filter (fun j => j.status = "completed")).length
    processing_jobs := (store.filter (fun j => j.status = "processing")).length
    failed_jobs := (store.filter (fun j => j.status = "failed")).length
    avg_readability_score := round2 avg_readability
    avg_seo_score := round2 avg_seo }

/-- Stable insertion step of a newest-first sort on `created_at`. -/
def insertRecent (x : StoredJob) : List StoredJob → List StoredJob
  | [] => [x]
  | y :: ys => if y.created_at ≥ x.created_at then y :: insertRecent x ys else x :: y :: ys

/-- Sort a store newest-first by `created_at`. -/
def sortRecent : List StoredJob → List StoredJob
  | [] => []
  | x :: xs => insertRecent x (sortRecent xs)

/-- Modelled from the spec's words for comparison ("sampled from up to
100 **most recent** completed jobs"): the sample the claim describes,
i.e. the completed jobs ordered newest-first by `created_at`, truncated
to 100.  The source applies no such ordering. -/
def specMostRecentSample (store : List StoredJob) : List StoredJob :=
  (sortRecent (store.filter (fun j => j.status = "completed"))).take 100

/-- Modelled from the spec's words: the average readability score over
the most-recent-100 sample, with the same guards and rounding as the
source. -/
def specAvgReadability (store : List StoredJob) : ℚ :=
  let completed := specMostRecentSample store
  let readability_scores :=
    (completed.filterMap (fun j => j.analysis)).map (fun a => a.readability_score)
  round2 (if completed.isEmpty then 0
    else if readability_scores.isEmpty then 0
    else readability_scores.sum / (readability_scores.length : ℚ))

/-! ### Concrete inputs used by counterexamples and witnesses -/

/-- An `AnalysisResult` with the given readability score (the other
fields are irrelevant to `get_stats`). -/
def mkAnalysis (r : ℚ) : AnalysisResult :=
  { readability_score := r
    seo_score := 0
    tone := "Neutral"
    keyword_density := []
    word_count := 0
    sentence_count := 0
    suggestions := [] }

/-- A store of 101 completed jobs: the first 100 in store order were
created at instants 99 down to 0 and have readability 0; the last one in
store order is the most recent job (instant 100) with readability 100.
`get_stats` samples the first 100 in store order and so misses the most
recent job entirely. -/
def statsStore : List StoredJob :=
  ((List.range 100).reverse.map (fun i =>
    { status := "completed", analysis := some (mkAnalysis 0), created_at := i })) ++
  [{ status := "completed", analysis := some (mkAnalysis 100), created_at := 100 }]

/-! ### Basic lemmas about the tokenisers -/

lemma splitSegsAux_length_pos (l : List Char) :
    ∀ done cur b, 0 < (splitSegsAux l done cur b).length := by
  induction l with
  | nil =>
    intro done cur b
    simp [splitSegsAux]
  | cons c cs ih =>
    intro done cur b
    by_cases hc : isTerm c = true
    · by_cases hb : b = true
      · simp [splitSegsAux, hc, hb]; exact ih done cur true
      · have hb' : b = false := by
          cases b with
          | false => rfl
          | true => exact absurd rfl hb
        simp [splitSegsAux, hc, hb']
        exact ih (done ++ [cur.reverse]) [] true
    · have hc' : isTerm c = false := by
        cases h : isTerm c with
        | false => rfl
        | true => exact absurd h hc
      simp [splitSegsAux, hc']
      exact ih done (c :: cur) false

/-- The `re.split` result always has at least one segment, so the
`sentences == 0` guard in `calculate_readability` is unreachable. -/
lemma sentenceCount_pos (text : String) : 0 < sentenceCount text := by
  unfold sentenceCount splitSegs
  exact splitSegsAux_length_pos _ _ _ _

/-- The empty pattern is a substring of every text (Python `"" in s`). -/
lemma hasSubstring_nil (l : List Char) : hasSubstring [] l = true := by
  cases l with
  | nil => rfl
  | cons c ts => simp [hasSubstring, listStartsWith]

lemma seo_length_branch_ge_ten (word_count : Nat) :
    (10 : ℚ) ≤
      (if 300 ≤ word_count ∧ word_count ≤ 2000 then (30 : ℚ)
       else if 2000 < word_count then 20 else 10) := by
  split
  · norm_num
  · split <;> norm_num

lemma seo_if_nonneg (b : Prop) [Decidable b] :
    (0 : ℚ) ≤ if b then (20 : ℚ) else 0 := by
  split <;> norm_num

lemma seo_variety_nonneg (u w : Nat) :
    (0 : ℚ) ≤ if 0 < w then ((u : ℚ) / (w : ℚ)) * 30 else 0 := by
  split
  · exact mul_nonneg (div_nonneg (Nat.cast_nonneg u) (Nat.cast_nonneg w)) (by norm_num)
  · exact le_refl 0

/-! ### Lemmas about the keyword sort and frequency table -/

lemma mem_insertDesc {x y : List Char × ℚ} {l : List (List Char × ℚ)} :
    x ∈ insertDesc y l ↔ x = y ∨ x ∈ l := by
  induction l with
  | nil => simp [insertDesc]
  | cons z zs ih =>
    by_cases h : z.2 ≤ y.2
    · simp [insertDesc, h]
    · simp [insertDesc, h, ih]
      tauto

lemma mem_sortDesc {x : List Char × ℚ} {l : List (List Char × ℚ)} :
    x ∈ sortDesc l ↔ x ∈ l := by
  induction l with
  | nil => simp [sortDesc]
  | cons z zs ih => simp [sortDesc, mem_insertDesc, ih]

lemma pairwise_insertDesc {x : List Char × ℚ} {l : List (List Char × ℚ)}
    (h : l.Pairwise (fun a b => b.2 ≤ a.2)) :
    (insertDesc x l).Pairwise (fun a b => b.2 ≤ a.2) := by
  induction l with
  | nil => simp [insertDesc]
  | cons z zs ih =>
    rcases List.pairwise_cons.mp h with ⟨hz, hzs⟩
    by_cases hc : z.2 ≤ x.2
    · simp only [insertDesc, hc, if_true]
      refine List.pairwise_cons.mpr ⟨?_, h⟩
      intro b hb
      rcases List.mem_cons.mp hb with rfl | hb'
      · exact hc
      · exact le_trans (hz b hb') hc
    · simp only [insertDesc, hc, if_false]
      refine List.pairwise_cons.mpr ⟨?_, ih hzs⟩
      intro b hb
      rcases mem_insertDesc.mp hb with rfl | hb'
      · exact le_of_not_le hc
      · exact hz b hb'

lemma pairwise_sortDesc (l : List (List Char × ℚ)) :
    (sortDesc l).Pairwise (fun a b => b.2 ≤ a.2) := by
  induction l with
  | nil => simp [sortDesc]
  | cons z zs ih => exact pairwise_insertDesc ih

lemma sumSnd_insertDesc (x : List Char × ℚ) (l : List (List Char × ℚ)) :
    ((insertDesc x l).map Prod.snd).sum = x.2 + (l.map Prod.snd).sum := by
  induction l with
  | nil => simp [insertDesc]
  | cons z zs ih =>
    by_cases hc : z.2 ≤ x.2
    · simp [insertDesc, hc]
    · simp [insertDesc, hc, ih]
      ring

lemma sumSnd_sortDesc (l : List (List Char × ℚ)) :
    ((sortDesc l).map Prod.snd).sum = (l.map Prod.snd).sum := by
  induction l with
  | nil => rfl
  | cons z zs ih => simp [sortDesc, sumSnd_insertDesc, ih]

lemma bumpFreq_prop (Q : List Char → Prop) (w : List Char) (hw : Q w)
    (acc : List (List Char × Nat)) (h : ∀ kv ∈ acc, Q kv.1 ∧ 1 ≤ kv.2) :
    ∀ kv ∈ bumpFreq acc w, Q kv.1 ∧ 1 ≤ kv.2 := by
  induction acc with
  | nil =>
    intro kv hkv
    simp only [bumpFreq, List.mem_singleton] at hkv
    subst hkv
    exact ⟨hw, le_refl 1⟩
  | cons z zs ih =>
    obtain ⟨k, v⟩ := z
    intro kv hkv
    by_cases hk : k = w
    · simp only [bumpFreq, hk, if_true, List.mem_cons] at hkv
      rcases hkv with rfl | hkv'
      · have := h (w, v) (by simp [hk])
        exact ⟨this.1, Nat.le_succ_of_le this.2⟩
      · exact h kv (List.mem_cons_of_mem _ hkv')
    · simp only [bumpFreq, hk, if_false, List.mem_cons] at hkv
      rcases hkv with rfl | hkv'
      · exact h (k, v) (List.mem_cons_self _ _)
      · exact ih (fun x hx => h x (List.mem_cons_of_mem _ hx)) kv hkv'

lemma freq_foldl_prop (Q : List Char → Prop) :
    ∀ (ws : List (List Char)) (acc : List (List Char × Nat)),
      (∀ w ∈ ws, Q w) → (∀ kv ∈ acc, Q kv.1 ∧ 1 ≤ kv.2) →
      ∀ kv ∈ ws.foldl bumpFreq acc, Q kv.1 ∧ 1 ≤ kv.2 := by
  intro ws
  induction ws with
  | nil =>
    intro acc _ hacc kv hkv
    exact hacc kv hkv
  | cons w rest ih =>
    intro acc hws hacc kv hkv
    simp only [List.foldl_cons] at hkv
    exact ih (bumpFreq acc w) (fun x hx => hws x (List.mem_cons_of_mem _ hx))
      (bumpFreq_prop Q w (hws w (List.mem_cons_self _ _)) acc hacc) kv hkv

lemma freqOf_prop (Q : List Char → Prop) (ws : List (List Char))
    (hws : ∀ w ∈ ws, Q w) : ∀ kv ∈ freqOf ws, Q kv.1 ∧ 1 ≤ kv.2 :=
  freq_foldl_prop Q ws [] hws (by simp)

lemma sumCnt_bumpFreq (acc : List (List Char × Nat)) (w : List Char) :
    ((bumpFreq acc w).map Prod.snd).sum = ((acc.map Prod.snd).sum) + 1 := by
  induction acc with
  | nil => simp [bumpFreq]
  | cons z zs ih =>
    obtain ⟨k, v⟩ := z
    by_cases hk : k = w
    · simp [bumpFreq, hk]
      omega
    · simp [bumpFreq, hk, ih]
      omega

lemma sumCnt_foldl :
    ∀ (ws : List (List Char)) (acc : List (List Char × Nat)),
      ((ws.foldl bumpFreq acc).map Prod.snd).sum = ((acc.map Prod.snd).sum) + ws.length := by
  intro ws
  induction ws with
  | nil => intro acc; simp
  | cons w rest ih =>
    intro acc
    simp only [List.foldl_cons, ih (bumpFreq acc w), sumCnt_bumpFreq, List.length_cons]
    omega

lemma sumCnt_freqOf (ws : List (List Char)) :
    ((freqOf ws).map Prod.snd).sum = ws.length := by
  have := sumCnt_foldl ws []
  simpa [freqOf] using this

lemma sumSnd_densify (f : List (List Char × Nat)) (t : ℚ) :
    (((f.map (fun kv => (kv.1, ((kv.2 : ℚ) / t) * 100))).map Prod.snd).sum)
      = (((f.map Prod.snd).sum : Nat) : ℚ) / t * 100 := by
  induction f with
  | nil => simp
  | cons z zs ih =>
    simp only [List.map_cons, List.sum_cons, ih]
    push_cast
    ring

lemma sum_take_le {l : List ℚ} (h : ∀ x ∈ l, 0 ≤ x) (n : Nat) :
    (l.take n).sum ≤ l.sum := by
  conv_rhs => rw [← List.take_append_drop n l]
  rw [List.sum_append]
  have hd : 0 ≤ (l.drop n).sum :=
    List.sum_nonneg (fun x hx => h x (List.mem_of_mem_drop hx))
  linarith

lemma keywordTokens_length (text : String) :
    ∀ w ∈ keywordTokens text, 3 < w.length := by
  intro w hw
  simp only [keywordTokens, List.mem_map] at hw
  obtain ⟨v, hv, rfl⟩ := hw
  rw [lowerList, List.length_map]
  have := (List.mem_filter.mp hv).2
  simpa using this

/-! ### Claim theorems -/

lemma readability_hello_eq : calculate_readability "hello" = 1831 / 50 := by
  have h1 : wordCount "hello" = 1 := by decide
  have h2 : sentenceCount "hello" = 1 := by decide
  have h3 : syllableCount "hello" = 2 := by decide
  simp only [calculate_readability, h1, h2, h3]
  norm_num

lemma extract_keywords_example_eq :
    extract_keywords "Hello world. This is great!" =
      [("hello".toList, 25), ("world".toList, 25),
       ("this".toList, 25), ("great".toList, 25)] := by
  have htok : keywordTokens "Hello world. This is great!" =
      ["hello".toList, "world".toList, "this".toList, "great".toList] := by decide
  have hfreq : freqOf ["hello".toList, "world".toList, "this".toList, "great".toList] =
      [("hello".toList, 1), ("world".toList, 1),
       ("this".toList, 1), ("great".toList, 1)] := by decide
  have hd : ((1 : ℚ) / (4 : ℚ)) * 100 = 25 := by norm_num
  simp only [extract_keywords, htok, hfreq, List.isEmpty_cons, List.length_cons,
    List.length_nil, List.map_cons, List.map_nil, hd]
  norm_num [sortDesc, insertDesc, List.take]

/-- **C4** (corrected): the original claim says `readability` returns
`0.0` when the text has no sentence terminators; but `re.split` always
yields at least one segment, so a terminator-free text with words gets
`sentences = 1` and the formula is computed.  Concretely,
`calculate_readability "hello" = 36.62 ≠ 0`. -/
theorem readability_no_terminator_counterexample :
    calculate_readability "hello" = 1831 / 50 ∧ (1831 / 50 : ℚ) ≠ 0 := by
  constructor
  · exact readability_hello_eq
  · norm_num

/-- **C4** (amended): for every text, `calculate_readability` lies in
`[0,100]`; it returns `0` whenever the word count is zero; the sentence
count of the `re.split` model is always at least 1 (so text without
terminators does not return `0` by the guard); and whenever the word
count is positive the result equals the clamped Flesch formula. -/
theorem readability_bounds (text : String) :
    0 ≤ calculate_readability text ∧ calculate_readability text ≤ 100 ∧
    (wordCount text = 0 → calculate_readability text = 0) ∧
    1 ≤ sentenceCount text ∧
    (0 < wordCount text →
      calculate_readability text =
        max 0 (min 100 (206835/1000
          - 1015/1000 * ((wordCount text : ℚ) / (sentenceCount text : ℚ))
          - 846/10 * ((syllableCount text : ℚ) / (wordCount text : ℚ))))) := by
  have hs := sentenceCount_pos text
  by_cases hw : wordCount text = 0
  · refine ⟨?_, ?_, fun _ => ?_, hs, fun hpos => absurd hw (Nat.pos_iff_ne_zero.mp hpos)⟩
    all_goals simp [calculate_readability, hw]
  · have hcond : ¬(sentenceCount text = 0 ∨ wordCount text = 0) := by
      push_neg
      exact ⟨Nat.pos_iff_ne_zero.mp hs, hw⟩
    refine ⟨?_, ?_, fun h => absurd h hw, hs, fun _ => ?_⟩
    · simp only [calculate_readability, hcond, if_false]
      exact le_max_left 0 _
    · simp only [calculate_readability, hcond, if_false]
      exact max_le (by norm_num) (min_le_left _ _)
    · simp [calculate_readability, hcond]

/-- **C4** witness: the amended theorem applied at concrete inputs,
discharging the zero-word and positive-word hypotheses. -/
theorem readability_bounds_witness :
    calculate_readability " " = 0 ∧
    calculate_readability "hello" =
      max 0 (min 100 (206835/1000
        - 1015/1000 * ((wordCount "hello" : ℚ) / (sentenceCount "hello" : ℚ))
        - 846/10 * ((syllableCount "hello" : ℚ) / (wordCount "hello" : ℚ)))) :=
  ⟨(readability_bounds " ").2.2.1 (by decide),
   (readability_bounds "hello").2.2.2.2 (by decide)⟩

/-- **C5** (corrected): on the spec's example input the code computes
`sentence_count = 3` (the `re.split` list keeps the empty trailing
segment), not 2, and `extract_keywords` keeps every token longer than
3 characters — `hello`, `world`, `this`, `great`, each with density
25.0 — not just `this` and `great` at 50.0. -/
theorem example_analysis_counterexample :
    sentenceCount "Hello world. This is great!" ≠ 2 ∧
    extract_keywords "Hello world. This is great!" ≠
      [("this".toList, 50), ("great".toList, 50)] := by
  constructor
  · decide
  · intro h
    rw [extract_keywords_example_eq] at h
    exact absurd (congrArg List.length h) (by decide)

/-- **C5** (amended): on input content `"Hello world. This is great!"`
the analysis metrics are `word_count = 5`, `sentence_count = 3`, and the
keyword densities are exactly `hello`, `world`, `this`, `great` (first
encounter order), each with density 25.0. -/
theorem example_analysis_values :
    wordCount "Hello world. This is great!" = 5 ∧
    sentenceCount "Hello world. This is great!" = 3 ∧
    extract_keywords "Hello world. This is great!" =
      [("hello".toList, 25), ("world".toList, 25),
       ("this".toList, 25), ("great".toList, 25)] :=
  ⟨by decide, by decide, extract_keywords_example_eq⟩

/-- **C7** (confirmed): `calculate_seo_score` lies in `[0,100]` and is
exactly the sum of the word-count branch (30 / 20 / 10), the 20-point
case-insensitive title-substring bonus, the 20-point newline-or-length
bonus, and `30 × unique/total` lexical variety, clamped above at 100. -/
theorem seo_score_formula (text title : String) :
    0 ≤ calculate_seo_score text title ∧ calculate_seo_score text title ≤ 100 ∧
    calculate_seo_score text title =
      min 100
        ((if 300 ≤ wordCount text ∧ wordCount text ≤ 2000 then (30 : ℚ)
          else if 2000 < wordCount text then 20 else 10)
         + (if hasSubstring (lowerList title.toList) (lowerList text.toList) then 20 else 0)
         + (if '\n' ∈ text.toList ∨ 500 < text.toList.length then 20 else 0)
         + (if 0 < wordCount text
            then ((uniqueLowerCount (splitWords text.toList) : ℚ) / (wordCount text : ℚ)) * 30
            else 0)) := by
  have hsum : (0 : ℚ) ≤
      (if 300 ≤ wordCount text ∧ wordCount text ≤ 2000 then (30 : ℚ)
        else if 2000 < wordCount text then 20 else 10)
       + (if hasSubstring (lowerList title.toList) (lowerList text.toList) then 20 else 0)
       + (if '\n' ∈ text.toList ∨ 500 < text.toList.length then 20 else 0)
       + (if 0 < wordCount text
          then ((uniqueLowerCount (splitWords text.toList) : ℚ) / (wordCount text : ℚ)) * 30
          else 0) := by
    have h1 := seo_length_branch_ge_ten (wordCount text)
    have h2 := seo_if_nonneg
      (hasSubstring (lowerList title.toList) (lowerList text.toList) = true)
    have h3 := seo_if_nonneg ('\n' ∈ text.toList ∨ 500 < text.toList.length)
    have h4 := seo_variety_nonneg (uniqueLowerCount (splitWords text.toList)) (wordCount text)
    simp only at h2 h3
    linarith
  refine ⟨?_, ?_, rfl⟩
  · exact le_min (by norm_num) hsum
  · exact min_le_left _ _

/-- **C10** (confirmed): the SEO score is always at least 10 (hence
never 0); with the empty title the substring bonus is always awarded,
so the score is then at least 30; empty content with empty title scores
exactly 30. -/
theorem seo_score_never_zero (text title : String) :
    10 ≤ calculate_seo_score text title ∧ calculate_seo_score text title ≠ 0 ∧
    30 ≤ calculate_seo_score text "" ∧ calculate_seo_score "" "" = 30 := by
  have hten : 10 ≤ calculate_seo_score text title := by
    rw [(seo_score_formula text title).2.2]
    refine le_min (by norm_num) ?_
    have h1 := seo_length_branch_ge_ten (wordCount text)
    have h2 := seo_if_nonneg
      (hasSubstring (lowerList title.toList) (lowerList text.toList) = true)
    have h3 := seo_if_nonneg ('\n' ∈ text.toList ∨ 500 < text.toList.length)
    have h4 := seo_variety_nonneg (uniqueLowerCount (splitWords text.toList)) (wordCount text)
    simp only at h2 h3
    linarith
  have hempty : 30 ≤ calculate_seo_score text "" := by
    rw [(seo_score_formula text "").2.2]
    refine le_min (by norm_num) ?_
    have h1 := seo_length_branch_ge_ten (wordCount text)
    have h2 : (if hasSubstring (lowerList "".toList) (lowerList text.toList) then (20 : ℚ)
        else 0) = 20 := by
      have : lowerList "".toList = [] := rfl
      rw [this, hasSubstring_nil]
      simp
    have h3 := seo_if_nonneg ('\n' ∈ text.toList ∨ 500 < text.toList.length)
    have h4 := seo_variety_nonneg (uniqueLowerCount (splitWords text.toList)) (wordCount text)
    simp only at h3
    rw [h2]
    linarith
  refine ⟨hten, ?_, hempty, ?_⟩
  · intro h0
    rw [h0] at hten
    norm_num at hten
  · have h2 : "".toList = ([] : List Char) := by decide
    have h0 : splitWords ([] : List Char) = ([] : List (List Char)) := by decide
    have h1 : hasSubstring (lowerList ([] : List Char)) (lowerList ([] : List Char)) = true := by
      decide
    simp only [calculate_seo_score, h2, h0, h1, List.length_nil]
    norm_num

/-- **C8** (confirmed): `extract_keywords` returns at most 5 entries;
every key is one of the lowercased qualifying tokens (length > 3) and
every density is strictly positive; the densities sum to at most 100;
the entries are in descending density order; and the result is empty
when no token qualifies. -/
theorem keyword_density_props (text : String) :
    (extract_keywords text).length ≤ 5 ∧
    (∀ kv ∈ extract_keywords text,
      kv.1 ∈ keywordTokens text ∧ 3 < kv.1.length ∧ 0 < kv.2) ∧
    ((extract_keywords text).map Prod.snd).sum ≤ 100 ∧
    (extract_keywords text).Pairwise (fun a b => b.2 ≤ a.2) ∧
    (keywordTokens text = [] → extract_keywords text = []) := by
  by_cases hws : keywordTokens text = []
  · simp [extract_keywords, hws]
  · have hne : (keywordTokens text).isEmpty = false := by
      cases h : keywordTokens text with
      | nil => exact absurd h hws
      | cons a b => rfl
    have hlenpos : 0 < (keywordTokens text).length := List.length_pos.mpr hws
    have hlenQ : 0 < (((keywordTokens text).length : Nat) : ℚ) := by exact_mod_cast hlenpos
    simp only [extract_keywords, hne, Bool.false_eq_true, if_false]
    set ws := keywordTokens text with hwsdef
    set dens := (freqOf ws).map
      (fun kv => (kv.1, ((kv.2 : ℚ) / ((ws.length : Nat) : ℚ)) * 100)) with hdens
    have hmemdens : ∀ kv ∈ dens, kv.1 ∈ ws ∧ 0 < kv.2 ∧ 3 < kv.1.length := by
      intro kv hkv
      rw [hdens] at hkv
      obtain ⟨fv, hfv, rfl⟩ := List.mem_map.mp hkv
      have hq := freqOf_prop (fun w => w ∈ ws) ws (fun w hw => hw) fv hfv
      have hpos : (0 : ℚ) < (fv.2 : ℚ) := by exact_mod_cast Nat.lt_of_lt_of_le Nat.zero_lt_one hq.2
      refine ⟨hq.1, ?_, keywordTokens_length text _ hq.1⟩
      exact mul_pos (div_pos hpos hlenQ) (by norm_num)
    refine ⟨?_, ?_, ?_, ?_, fun h => absurd h hws⟩
    · rw [List.length_take]
      omega
    · intro kv hkv
      have hmem := hmemdens kv (mem_sortDesc.mp (List.mem_of_mem_take hkv))
      exact ⟨hmem.1, hmem.2.2, hmem.2.1⟩
    · have hnn : ∀ x ∈ (sortDesc dens).map Prod.snd, (0 : ℚ) ≤ x := by
        intro x hx
        obtain ⟨kv, hkv, rfl⟩ := List.mem_map.mp hx
        exact le_of_lt (hmemdens kv (mem_sortDesc.mp hkv)).2.1
      calc (((sortDesc dens).take 5).map Prod.snd).sum
          = (((sortDesc dens).map Prod.snd).take 5).sum := by rw [List.map_take]
        _ ≤ ((sortDesc dens).map Prod.snd).sum := sum_take_le hnn 5
        _ = (dens.map Prod.snd).sum := sumSnd_sortDesc dens
        _ = (((((freqOf ws).map Prod.snd).sum : Nat) : ℚ) / ((ws.length : Nat) : ℚ)) * 100 :=
            sumSnd_densify _ _
        _ = (((ws.length : Nat) : ℚ) / ((ws.length : Nat) : ℚ)) * 100 := by
            rw [sumCnt_freqOf]
        _ = 100 := by
            rw [div_self (ne_of_gt hlenQ)]
            norm_num
    · exact List.Pairwise.sublist (List.take_sublist _ _) (pairwise_sortDesc dens)

/-- **C8** witness: the theorem applied at a text with no qualifying
tokens (empty mapping) and at the C5 example (where `hello` is a key
with positive density). -/
theorem keyword_density_props_witness :
    extract_keywords "a bb cc" = [] ∧
    (("hello".toList, (25 : ℚ)).1 ∈ keywordTokens "Hello world. This is great!" ∧
      3 < ("hello".toList, (25 : ℚ)).1.length ∧ (0 : ℚ) < ("hello".toList, (25 : ℚ)).2) :=
  ⟨(keyword_density_props "a bb cc").2.2.2.2 (by decide),
   (keyword_density_props "Hello world. This is great!").2.1 _
     (by rw [extract_keywords_example_eq]; exact List.mem_cons_self _ _)⟩

/-- **C6** (corrected): the claim says the parsed suggestions list always
has exactly 3 elements, with the fallback used when fewer lines than
expected are found.  But the code falls back only when **zero** numbered
lines are found; with one or two matches it keeps them as-is.  On the
response `"TONE: Formal\n1. Do X"` the list has exactly one element. -/
theorem suggestions_exactly_three_counterexample :
    (parseSuggestions "TONE: Formal\n1. Do X").length = 1 ∧ (1 : Nat) ≠ 3 := by
  constructor
  · decide
  · decide

/-- **C6** (amended): the parsed suggestions list has between 1 and 3
elements; the three fixed fallback strings are used exactly when **no**
numbered list line is found; when three or more are found the list is
truncated to exactly 3. -/
theorem suggestions_length_bounds (response : String) :
    1 ≤ (parseSuggestions response).length ∧ (parseSuggestions response).length ≤ 3 ∧
    (findNumItems response.toList = [] →
      parseSuggestions response =
        ["Improve clarity", "Enhance engagement", "Optimize structure"]) ∧
    (3 ≤ (findNumItems response.toList).length →
      (parseSuggestions response).length = 3) := by
  cases h : findNumItems response.toList with
  | nil =>
    have h' : findNumItems response.data = [] := h
    simp [parseSuggestions, h']
  | cons x xs =>
    have h' : findNumItems response.data = x :: xs := h
    refine ⟨?_, ?_, fun hnil => absurd hnil (by simp), fun h3 => ?_⟩
    · simp [parseSuggestions, h', List.length_take]
    · simp [parseSuggestions, h', List.length_take]
    · simp only [List.length_cons] at h3
      simp [parseSuggestions, h', List.length_take]
      omega

/-- **C6** witness: the amended theorem applied at a response with no
numbered lines (fallback) and at one with four (truncation to 3). -/
theorem suggestions_length_bounds_witness :
    parseSuggestions "no numbered lines" =
      ["Improve clarity", "Enhance engagement", "Optimize structure"] ∧
    (parseSuggestions "1. a\n2. b\n3. c\n4. d").length = 3 :=
  ⟨(suggestions_length_bounds "no numbered lines").2.2.1 (by decide),
   (suggestions_length_bounds "1. a\n2. b\n3. c\n4. d").2.2.2 (by decide)⟩

/-- **C1** (confirmed): in every persisted job state, `optimization`
present implies `analysis` present and `variants` present implies
`optimization` present; `completed` is only ever persisted with all
three fields set; a `failed` state is the last state of the trace (no
later stage executes); and when the optimize and vary adapter calls
succeed the final state is `completed` with all three fields set. -/
theorem pipeline_invariants (beh : AdapterBehavior) (input : ContentInput)
    (id : String) (t0 t1 : Nat) :
    (∀ j ∈ jobTrace beh input id t0 t1,
      (j.optimization.isSome → j.analysis.isSome) ∧
      (j.variants.isSome → j.optimization.isSome) ∧
      (j.status = "completed" →
        j.analysis.isSome ∧ j.optimization.isSome ∧ j.variants.isSome)) ∧
    (∀ j ∈ jobTrace beh input id t0 t1, j.status = "failed" →
      finalJob beh input id t0 t1 = j) ∧
    (∀ r s, beh.optimizeResp = Except.ok r → beh.varyResp = Except.ok s →
      (finalJob beh input id t0 t1).status = "completed" ∧
      (finalJob beh input id t0 t1).analysis.isSome ∧
      (finalJob beh input id t0 t1).optimization.isSome ∧
      (finalJob beh input id t0 t1).variants.isSome) := by
  obtain ⟨a, o, v⟩ := beh
  cases o with
  | error e =>
    simp [jobTrace, finalJob, process_content_job, submit_content,
      optimize_content_with_ai, List.getLastD]
  | ok r =>
    cases v with
    | error e =>
      simp [jobTrace, finalJob, process_content_job, submit_content,
        optimize_content_with_ai, generate_variants_with_ai, List.getLastD]
    | ok s =>
      simp [jobTrace, finalJob, process_content_job, submit_content,
        optimize_content_with_ai, generate_variants_with_ai, List.getLastD]

/-- **C1** witness: with an all-successful adapter the final state of a
concrete job is `completed`. -/
theorem pipeline_invariants_witness :
    (finalJob ⟨Except.ok "ra", Except.ok "ro", Except.ok "rv"⟩
      ⟨"t", "c", "article"⟩ "job1" 0 1).status = "completed" :=
  ((pipeline_invariants ⟨Except.ok "ra", Except.ok "ro", Except.ok "rv"⟩
      ⟨"t", "c", "article"⟩ "job1" 0 1).2.2 "ro" "rv" rfl rfl).1

/-- **C2** (confirmed): when the optimize-stage adapter call fails, the
job's final state is `failed` with `analysis` still present (stage-1
results are not rolled back), `optimization` and `variants` absent, a
non-empty error string, and the completion timestamp set; the trace has
exactly three states (submit, analysis, failure), so no later stage
executes. -/
theorem optimize_failure_final (beh : AdapterBehavior) (input : ContentInput)
    (id : String) (t0 t1 : Nat) (e : String)
    (h : beh.optimizeResp = Except.error e) :
    (finalJob beh input id t0 t1).status = "failed" ∧
    (finalJob beh input id t0 t1).analysis.isSome ∧
    (finalJob beh input id t0 t1).optimization = none ∧
    (finalJob beh input id t0 t1).variants = none ∧
    (∃ msg, (finalJob beh input id t0 t1).error = some msg ∧ msg ≠ "") ∧
    (finalJob beh input id t0 t1).completed_at = some t1 ∧
    (jobTrace beh input id t0 t1).length = 3 := by
  obtain ⟨a, o, v⟩ := beh
  simp only at h
  subst h
  have hmsg : ("Optimization failed: " ++ e) ≠ "" := by
    intro hc
    have hlen := congrArg String.length hc
    rw [String.length_append] at hlen
    have hpos : 0 < "Optimization failed: ".length := by decide
    have hzero : "".length = 0 := by decide
    omega
  refine ⟨?_, ?_, ?_, ?_, ⟨"Optimization failed: " ++ e, ?_, hmsg⟩, ?_, ?_⟩ <;>
    simp [jobTrace, finalJob, process_content_job, submit_content,
      optimize_content_with_ai, List.getLastD]

/-- **C2** witness: the theorem applied to a concrete job whose optimize
call fails. -/
theorem optimize_failure_final_witness :
    (⟨Except.ok "ra", Except.error "boom", Except.ok "rv"⟩ : AdapterBehavior).optimizeResp
        = Except.error "boom" ∧
    (finalJob ⟨Except.ok "ra", Except.error "boom", Except.ok "rv"⟩
      ⟨"t", "c", "article"⟩ "job2" 0 1).status = "failed" :=
  ⟨rfl,
   (optimize_failure_final ⟨Except.ok "ra", Except.error "boom", Except.ok "rv"⟩
      ⟨"t", "c", "article"⟩ "job2" 0 1 "boom" rfl).1⟩

/-- **C3** (confirmed): when the analyze-stage adapter call fails, the
analysis result still exists with tone `"Unable to analyze"` and the
three fixed fallback suggestions; the trace always reaches the optimize
stage (length ≥ 3); a `failed` state can only be caused by the optimize
or vary stage; and if those both succeed the job still completes. -/
theorem analyze_failure_absorbed (beh : AdapterBehavior) (input : ContentInput)
    (id : String) (t0 t1 : Nat) (msg : String)
    (h : beh.analyzeResp = Except.error msg) :
    (analyze_content_with_ai beh.analyzeResp input.content input.title
        input.content_type).tone = "Unable to analyze" ∧
    (analyze_content_with_ai beh.analyzeResp input.content input.title
        input.content_type).suggestions =
      ["Improve readability", "Enhance SEO", "Strengthen engagement"] ∧
    3 ≤ (jobTrace beh input id t0 t1).length ∧
    (∀ j ∈ jobTrace beh input id t0 t1, j.status = "failed" →
      (∃ e, beh.optimizeResp = Except.error e) ∨
      (∃ e, beh.varyResp = Except.error e)) ∧
    (∀ r s, beh.optimizeResp = Except.ok r → beh.varyResp = Except.ok s →
      (finalJob beh input id t0 t1).status = "completed") := by
  obtain ⟨a, o, v⟩ := beh
  simp only at h
  subst h
  refine ⟨by simp [analyze_content_with_ai], by simp [analyze_content_with_ai], ?_, ?_, ?_⟩
  · cases o <;> cases v <;>
      simp [jobTrace, process_content_job, submit_content,
        optimize_content_with_ai, generate_variants_with_ai]
  · cases o <;> cases v <;>
      simp [jobTrace, process_content_job, submit_content,
        optimize_content_with_ai, generate_variants_with_ai]
  · cases o <;> cases v <;>
      simp [jobTrace, finalJob, process_content_job, submit_content,
        optimize_content_with_ai, generate_variants_with_ai, List.getLastD]

/-- **C3** witness: a concrete job whose analyze call fails but whose
remaining stages succeed still completes, with the fallback analysis. -/
theorem analyze_failure_absorbed_witness :
    (⟨Except.error "down", Except.ok "ro", Except.ok "rv"⟩ : AdapterBehavior).analyzeResp
        = Except.error "down" ∧
    (analyze_content_with_ai (Except.error "down") "c" "t" "article").tone
        = "Unable to analyze" ∧
    (finalJob ⟨Except.error "down", Except.ok "ro", Except.ok "rv"⟩
      ⟨"t", "c", "article"⟩ "job3" 0 1).status = "completed" :=
  ⟨rfl,
   (analyze_failure_absorbed ⟨Except.error "down", Except.ok "ro", Except.ok "rv"⟩
      ⟨"t", "c", "article"⟩ "job3" 0 1 "down" rfl).1,
   (analyze_failure_absorbed ⟨Except.error "down", Except.ok "ro", Except.ok "rv"⟩
      ⟨"t", "c", "article"⟩ "job3" 0 1 "down" rfl).2.2.2.2 "ro" "rv" rfl rfl⟩

/-! ### Lemmas for the `/stats` comparison -/

lemma insertRecent_perm (x : StoredJob) (l : List StoredJob) :
    List.Perm (insertRecent x l) (x :: l) := by
  induction l with
  | nil => exact List.Perm.refl _
  | cons y ys ih =>
    by_cases h : y.created_at ≥ x.created_at
    · simp only [insertRecent, h, if_true]
      exact (List.Perm.cons y ih).trans (List.Perm.swap x y ys)
    · simp only [insertRecent, h, if_false]
      exact List.Perm.refl _

lemma sortRecent_perm (l : List StoredJob) : List.Perm (sortRecent l) l := by
  induction l with
  | nil => exact List.Perm.refl _
  | cons x xs ih => exact (insertRecent_perm x (sortRecent xs)).trans (List.Perm.cons x ih)

lemma isEmpty_eq_of_length_eq {α β : Type} {l₁ : List α} {l₂ : List β}
    (h : l₁.length = l₂.length) : l₁.isEmpty = l₂.isEmpty := by
  cases l₁ <;> cases l₂ <;> simp_all

/-- **C9** (corrected): `get_stats` samples the **first** 100 completed
jobs in store order (`find` with no sort, `to_list(100)`), not the 100
most recent.  On `statsStore` — 101 completed jobs whose most recent one
(the only one with readability 100) sits last in store order — the code
returns average readability 0 while the spec's most-recent-100 sample
averages 1. -/
theorem stats_most_recent_counterexample :
    (get_stats statsStore).avg_readability_score = 0 ∧
    specAvgReadability statsStore = 1 ∧ ((0 : ℚ) ≠ 1) := by
  have h1 : (((statsStore.filter (fun j => j.status = "completed")).take 100).filterMap
      (fun j => j.analysis)).map (fun a => a.readability_score)
        = List.replicate 100 (0 : ℚ) := by decide
  have h1e : ((statsStore.filter (fun j => j.status = "completed")).take 100).isEmpty
      = false := by decide
  have h2 : ((specMostRecentSample statsStore).filterMap (fun j => j.analysis)).map
      (fun a => a.readability_score) = (100 : ℚ) :: List.replicate 99 0 := by decide
  have h2e : (specMostRecentSample statsStore).isEmpty = false := by decide
  have hr100 : round ((100 : ℚ)) = (100 : ℤ) := by
    rw [show ((100 : ℚ)) = ((100 : ℤ) : ℚ) by norm_num, round_intCast]
  refine ⟨?_, ?_, by norm_num⟩
  · simp only [get_stats, h1, h1e, Bool.false_eq_true, if_false]
    rw [show ((List.replicate 100 (0 : ℚ)).isEmpty) = false by decide]
    simp only [Bool.false_eq_true, if_false, List.sum_replicate, List.length_replicate,
      smul_zero, round2]
    norm_num
  · simp only [specAvgReadability, h2, h2e, Bool.false_eq_true, if_false]
    rw [show (((100 : ℚ) :: List.replicate 99 0).isEmpty) = false by decide]
    simp only [Bool.false_eq_true, if_false, List.sum_cons, List.sum_replicate,
      List.length_cons, List.length_replicate, smul_zero, round2]
    norm_num [hr100]

/-- **C9** (amended): `get_stats` reports the four per-status counts; its
average is computed over the first 100 completed jobs in store order,
which coincides with the spec's most-recent-100 sample whenever at most
100 completed jobs exist; and the empty store yields all-zero counts and
averages. -/
theorem stats_counts_and_sample (store : List StoredJob) :
    (get_stats store).total_jobs = store.length ∧
    (get_stats store).completed_jobs =
      (store.filter (fun j => j.status = "completed")).length ∧
    (get_stats store).processing_jobs =
      (store.filter (fun j => j.status = "processing")).length ∧
    (get_stats store).failed_jobs =
      (store.filter (fun j => j.status = "failed")).length ∧
    ((store.filter (fun j => j.status = "completed")).length ≤ 100 →
      (get_stats store).avg_readability_score = specAvgReadability store) ∧
    get_stats [] = ⟨0, 0, 0, 0, 0, 0⟩ := by
  refine ⟨rfl, rfl, rfl, rfl, ?_, ?_⟩
  · intro hle
    have hperm : List.Perm
        (sortRecent (store.filter (fun j => j.status = "completed")))
        (store.filter (fun j => j.status = "completed")) :=
      sortRecent_perm _
    have hslen := hperm.length_eq
    have htake1 : (store.filter (fun j => j.status = "completed")).take 100 =
        store.filter (fun j => j.status = "completed") :=
      List.take_of_length_le hle
    have htake2 : (sortRecent (store.filter (fun j => j.status = "completed"))).take 100 =
        sortRecent (store.filter (fun j => j.status = "completed")) :=
      List.take_of_length_le (by omega)
    have hscores : List.Perm
        (((sortRecent (store.filter (fun j => j.status = "completed"))).filterMap
          (fun j => j.analysis)).map (fun a => a.readability_score))
        (((store.filter (fun j => j.status = "completed")).filterMap
          (fun j => j.analysis)).map (fun a => a.readability_score)) :=
      (hperm.filterMap _).map _
    simp only [get_stats, specAvgReadability, specMostRecentSample, htake1, htake2]
    rw [isEmpty_eq_of_length_eq hslen, isEmpty_eq_of_length_eq hscores.length_eq,
      hscores.sum_eq, hscores.length_eq]
  · have h0 : (([] : List StoredJob).filter (fun j => j.status = "completed")).take 100
        = [] := rfl
    simp [get_stats, round2]

/-- **C9** witness: on a store with a single completed job the code's
average agrees with the spec's most-recent sample average. -/
theorem stats_counts_and_sample_witness :
    (get_stats [{ status := "completed", analysis := some (mkAnalysis 50), created_at := 5 }]
      ).avg_readability_score =
    specAvgReadability
      [{ status := "completed", analysis := some (mkAnalysis 50), created_at := 5 }] :=
  (stats_counts_and_sample
      [{ status := "completed", analysis := some (mkAnalysis 50), created_at := 5 }]
    ).2.2.2.2.1 (by decide)

end ContentRefine
